import Mathlib

/-!
# vf-database-replay: the entry point `main.cpp`

A shallow embedding of `src/main.cpp`: the two parameter checks
(`checkDatabaseParam`, `checkTickrateParam`) and `main`, which wires the
Vein subsystems together and starts the replay.

Every function yields, next to its C++ return value, the ordered list of
observable effects it performs (`Effect`): log lines, file-system queries,
object constructions and the calls made on the subsystems.  The Qt library
functions the code relies on (`QString::toInt`, `QCommandLineParser::value`,
`QCommandLineParser::showHelp`) are embedded after their documented behaviour.
-/

namespace VfDatabaseReplay

/-! ## Qt library behaviour used by `main.cpp` -/

/-- Qt's `QChar::isSpace`: the ASCII white space, NEL, NBSP and the Unicode separators. -/
def isSpace (c : Char) : Bool :=
  let u := c.toNat
  u == 0x20 || (0x09 ≤ u && u ≤ 0x0d) || u == 0x85 || u == 0xa0 || u == 0x1680 ||
    (0x2000 ≤ u && u ≤ 0x200a) || u == 0x2028 || u == 0x2029 || u == 0x202f ||
    u == 0x205f || u == 0x3000

/-- Drops the leading white space of a character sequence. -/
def skipSpaces : List Char → List Char
  | [] => []
  | c :: cs => if isSpace c then skipSpaces cs else c :: cs

/-- Qt's `QString::trimmed` on the character sequence: white space is removed at both ends. -/
def trimmed (cs : List Char) : List Char :=
  (skipSpaces (skipSpaces cs).reverse).reverse

/-- Value of an ASCII decimal digit, `none` for any other character. -/
def digitValue (c : Char) : Option Nat :=
  if '0' ≤ c ∧ c ≤ '9' then some (c.toNat - '0'.toNat) else none

/-- Accumulates a run of decimal digits; `none` as soon as a non-digit is met. -/
def parseDigits : Nat → List Char → Option Nat
  | acc, [] => some acc
  | acc, c :: cs =>
    match digitValue c with
    | some d => parseDigits (10 * acc + d) cs
    | none => none

/-- An optionally signed, non-empty run of decimal digits. -/
def parseSigned : List Char → Option Int
  | [] => none
  | '-' :: [] => none
  | '+' :: [] => none
  | '-' :: cs => (parseDigits 0 cs).map fun n => -(n : Int)
  | '+' :: cs => (parseDigits 0 cs).map fun n => (n : Int)
  | cs => (parseDigits 0 cs).map fun n => (n : Int)

/-- Smallest value of the C++ type `int` (32 bit). -/
def INT_MIN : Int := -2147483648

/-- Largest value of the C++ type `int` (32 bit). -/
def INT_MAX : Int := 2147483647

/-- Result of `QString::toInt(bool *ok)`: the returned `int` and the flag written to `*ok`. -/
structure ToIntResult where
  value : Int
  ok : Bool
  deriving DecidableEq, Repr

/-- Qt's `QString::toInt(&ok)` in base 10: surrounding white space is ignored, the rest must be an
optionally signed run of decimal digits whose value fits an `int`; on failure the result is
`0` and `ok` is `false`. -/
def toInt (s : String) : ToIntResult :=
  match parseSigned (trimmed s.data) with
  | some n => if INT_MIN ≤ n ∧ n ≤ INT_MAX then ⟨n, true⟩ else ⟨0, false⟩
  | none => ⟨0, false⟩

/-- The three options `main` registers with the `QCommandLineParser`. -/
inductive CommandLineOption
  | databaseOption
  | tickrateOption
  | loopOption
  deriving DecidableEq, Repr

/-- State of the `QCommandLineParser` after `parser.process(app)` returned: the values given
for `-f` and for `-t`, in command-line order, and the number of times `-l` was given. -/
structure QCommandLineParser where
  fValues : List String
  tValues : List String
  lCount : Nat
  deriving DecidableEq, Repr

/-- Qt's `QCommandLineParser::value`: the last value given for the option, the empty string when
the option was not given (the options of `main` have no default value). -/
def QCommandLineParser.value (parser : QCommandLineParser) : CommandLineOption → String
  | .databaseOption => parser.fValues.getLast?.getD ""
  | .tickrateOption => parser.tValues.getLast?.getD ""
  | .loopOption => ""

/-- Qt's `QCommandLineParser::isSet`: whether the option occurs on the command line. -/
def QCommandLineParser.isSet (parser : QCommandLineParser) : CommandLineOption → Bool
  | .databaseOption => !parser.fValues.isEmpty
  | .tickrateOption => !parser.tValues.isEmpty
  | .loopOption => 0 < parser.lCount

/-- What `QFileInfo` and `QMimeDatabase` report about the paths of the file system. -/
structure FileSystem where
  /-- Result of `QFileInfo::exists()` of the path -/
  fileExists : String → Bool
  /-- Result of `QMimeDatabase::mimeTypeForFile(info, MatchContent).name()` of the path -/
  mimeName : String → String
  /-- Result of `QFileInfo::size()` of the path, in bytes -/
  size : String → Nat

/-! ## Effects -/

/-- The event systems `main` creates on the heap, named after its local variables. -/
inductive Subsystem
  | replaySystem
  | storSystem
  | introspectionSystem
  | netSystem
  | tcpSystem
  deriving DecidableEq, Repr

/-- Observable steps of the program, in the order the code performs them. -/
inductive Effect
  /-- Statement `qWarning() << text << arg` -/
  | warning (text : String) (arg : String)
  /-- Statement `qDebug() << "Database file:" << path << "<size> MB"`; the size is kept in bytes -/
  | debugDatabaseFile (path : String) (sizeBytes : Nat)
  /-- Statement `qDebug() << "tickrate:" << tickrate` -/
  | debugTickrate (tickrate : Int)
  /-- Query: `QFileInfo::exists()` is asked about the path -/
  | queryExists (path : String)
  /-- Query: `QMimeDatabase::mimeTypeForFile` inspects the content of the path -/
  | queryMimeType (path : String)
  /-- Call `parser.showHelp(exitCode)`: prints the usage text and exits the process -/
  | showHelp (exitCode : Int)
  /-- Declaration `VeinEvent::EventHandler evHandler;` -/
  | constructEventHandler
  /-- Allocation `new ...System(&app)` -/
  | construct (s : Subsystem)
  /-- Call `netSystem->setOperationMode(VeinNet::NetworkSystem::VNOM_PASS_THROUGH)` -/
  | setOperationModePassThrough
  /-- Call `evHandler.setSubsystems(subSystems)` -/
  | setSubsystems (subSystems : List Subsystem)
  /-- Call `replaySystem->setDatabaseFile(path)` -/
  | setDatabaseFile (path : String)
  /-- Call `replaySystem->setTickrate(tickrate)` -/
  | setTickrate (tickrate : Int)
  /-- Call `replaySystem->startReplay()` -/
  | startReplay
  /-- Call `replaySystem->setLoop(loop)` -/
  | setLoop (loop : Bool)
  /-- Call `tcpSystem->startServer(port)` -/
  | startServer (port : Nat)
  /-- Call `app.exec()`: the Qt event loop is entered -/
  | exec
  deriving DecidableEq, Repr

/-! ## The functions of `main.cpp` -/

/-- Embedding of `bool checkDatabaseParam(const QString &t_dbParam)`: the return value and the effects. -/
def checkDatabaseParam (fs : FileSystem) (t_dbParam : String) : Bool × List Effect :=
  if t_dbParam.data.isEmpty then
    (false, [.warning "invalid parameter f" t_dbParam])
  else
    if fs.fileExists t_dbParam == false then
      (false, [.queryExists t_dbParam, .warning "Database file does not exist:" t_dbParam])
    else
      let mimeName := fs.mimeName t_dbParam
      if mimeName != "application/x-sqlite3" then
        (false, [.queryExists t_dbParam, .queryMimeType t_dbParam,
          .warning "Database filetype not supported:" mimeName])
      else
        (true, [.queryExists t_dbParam, .queryMimeType t_dbParam,
          .debugDatabaseFile t_dbParam (fs.size t_dbParam)])

/-- Embedding of `bool checkTickrateParam(const QString &t_tickrate)`: the return value and the effects. -/
def checkTickrateParam (t_tickrate : String) : Bool × List Effect :=
  let r := toInt t_tickrate
  let tickrateOk := r.ok
  let tickrate := r.value
  if tickrateOk == false || tickrate < 10 || tickrate > 1000 then
    (false, [.warning "Invalid parameter t" t_tickrate])
  else
    (true, [.debugTickrate tickrate])

/-- How a run of `main` ends. -/
inductive Termination
  /-- the process was ended by `::exit(code)` inside `parser.showHelp(code)` -/
  | exited (code : Int)
  /-- Normal end: `main` reached `return app.exec()` and runs the event loop -/
  | eventLoop
  deriving DecidableEq, Repr

/-- A run of `main`: its effects in order, and how it ends. -/
structure Run where
  trace : List Effect
  termination : Termination
  deriving DecidableEq, Repr

/-- The part of `main` after both checks passed (lines 118 to 143). -/
def startSystems (parser : QCommandLineParser) : List Effect :=
  let subSystems : List Subsystem := []
  let subSystems := subSystems ++ [Subsystem.replaySystem]
  let subSystems := subSystems ++ [Subsystem.storSystem]
  let subSystems := subSystems ++ [Subsystem.introspectionSystem]
  let subSystems := subSystems ++ [Subsystem.netSystem]
  let subSystems := subSystems ++ [Subsystem.tcpSystem]
  [ .constructEventHandler,
    .construct .replaySystem,
    .construct .storSystem,
    .construct .introspectionSystem,
    .construct .netSystem,
    .construct .tcpSystem,
    .setOperationModePassThrough,
    .setSubsystems subSystems,
    .setDatabaseFile (parser.value .databaseOption),
    .setTickrate (toInt (parser.value .tickrateOption)).value,
    .startReplay,
    .setLoop (parser.isSet .loopOption),
    .startServer 12000,
    .exec ]

/-- Embedding of `int main(int argc, char *argv[])` from `parser.process(app)` on: `parser.showHelp(1)`
does not return, so a failed check ends the run at once. -/
def main (fs : FileSystem) (parser : QCommandLineParser) : Run :=
  let db := checkDatabaseParam fs (parser.value .databaseOption)
  if db.1 == false then
    ⟨db.2 ++ [.showHelp 1], .exited 1⟩
  else
    let tick := checkTickrateParam (parser.value .tickrateOption)
    if tick.1 == false then
      ⟨db.2 ++ tick.2 ++ [.showHelp 1], .exited 1⟩
    else
      ⟨db.2 ++ tick.2 ++ startSystems parser, .eventLoop⟩

/-! ## The event bus of the specification

`main` hands its subsystem list to `VeinEvent::EventHandler::setSubsystems`.  The event
handler and the subsystem interface belong to the Vein framework (`ve_eventhandler.h`,
`ve_eventsystem.h`) and are not among the sources, so the dispatch is embedded after
sections 4.2, 4.4 and 5 of the specification, in its single-threaded form. -/

/-- Modelled from the spec: the result of a subsystem's `onEvent` (sections 4.4 and 7), whose
declaration `ve_eventsystem.h` is missing: success, an isolated `SubsystemError`, or an
error marked `Fatal`. -/
inductive OnEventResult
  | ok
  | error
  | fatal
  deriving DecidableEq, Repr

/-- Modelled from the spec: the observable steps of the event bus of section 4.2, whose code
`ve_eventhandler.h` is missing.  `event` is the position of the event in the sequence the
scheduler emits. -/
inductive DispatchStep (σ : Type)
  /-- The `onEvent` of the subsystem is entered with the event -/
  | began (s : σ) (event : Nat)
  /-- The `onEvent` of the subsystem returned -/
  | returned (s : σ) (event : Nat) (result : OnEventResult)
  /-- the error of the subsystem is surfaced to the session-wide failure reporter -/
  | reported (s : σ) (event : Nat)
  /-- the session goes to `Idle` after a `Fatal` error -/
  | sessionStopped (event : Nat)
  deriving DecidableEq, Repr

/-- Modelled from the spec: the event a step of the bus (section 4.2, `ve_eventhandler.h`
missing) belongs to. -/
def DispatchStep.event {σ : Type} : DispatchStep σ → Nat
  | .began _ k => k
  | .returned _ k _ => k
  | .reported _ k => k
  | .sessionStopped k => k

/-- Modelled from the spec: the subsystem a step of the bus (section 4.2,
`ve_eventhandler.h` missing) belongs to, if any. -/
def DispatchStep.subsystem? {σ : Type} : DispatchStep σ → Option σ
  | .began s _ => some s
  | .returned s _ _ => some s
  | .reported s _ => some s
  | .sessionStopped _ => none

/-- Modelled from the spec: one subsystem handling one event (sections 4.2 and 4.4,
`ve_eventhandler.h` missing): `onEvent` is entered and returns; an error is surfaced to the
failure reporter; a `Fatal` error stops the session. -/
def deliver {σ : Type} (s : σ) (k : Nat) : OnEventResult → List (DispatchStep σ)
  | .ok => [.began s k, .returned s k .ok]
  | .error => [.began s k, .returned s k .error, .reported s k]
  | .fatal => [.began s k, .returned s k .fatal, .reported s k, .sessionStopped k]

/-- Modelled from the spec: `dispatch(event)` of section 4.2 (`ve_eventhandler.h` missing):
the event is delivered to the registered subsystems in registration order, each one
synchronously; after an error the dispatch continues with the remaining subsystems, after a
`Fatal` error it stops.  The flag tells whether the session goes on. -/
def dispatch {σ ε : Type} (onEvent : σ → Nat → ε → OnEventResult) (k : Nat) (event : ε) :
    List σ → List (DispatchStep σ) × Bool
  | [] => ([], true)
  | s :: rest =>
    let r := onEvent s k event
    if r = .fatal then
      (deliver s k r, false)
    else
      let d := dispatch onEvent k event rest
      (deliver s k r ++ d.1, d.2)

/-- Modelled from the spec: a session of the bus (section 4.2, `ve_eventhandler.h` missing):
the events the scheduler emits, numbered from `k`, are dispatched one after the other, each
one to completion before the next is accepted, until a `Fatal` error stops the session. -/
def runSession {σ ε : Type} (onEvent : σ → Nat → ε → OnEventResult) (subs : List σ) :
    Nat → List ε → List (DispatchStep σ)
  | _, [] => []
  | k, e :: es =>
    let d := dispatch onEvent k e subs
    if d.2 then d.1 ++ runSession onEvent subs (k + 1) es else d.1

/-- The list `main` passes to `setSubsystems`. -/
def mainSubsystems : List Subsystem :=
  [.replaySystem, .storSystem, .introspectionSystem, .netSystem, .tcpSystem]

/-- A sample behaviour of the subsystems: the network system fails on event 1. -/
def sampleOnEvent (s : Subsystem) (k : Nat) (_event : String) : OnEventResult :=
  if s = .netSystem ∧ k = 1 then .error else .ok

/-- Order of two steps of the bus: if the first is a start of `B` on an event, the second
is no completion of `A` on that event. -/
def NoReturnAfterBegin {σ : Type} (A B : σ) (x y : DispatchStep σ) : Prop :=
  ∀ j, x = .began B j → ∀ r, y ≠ .returned A j r

/-! ## Reading a trace -/

/-- The effects only the two parameter checks produce: log lines and file-system queries. -/
def Effect.isCheckEffect : Effect → Bool
  | .warning _ _ => true
  | .debugDatabaseFile _ _ => true
  | .debugTickrate _ => true
  | .queryExists _ => true
  | .queryMimeType _ => true
  | _ => false

/-- The warnings of a trace, in order: the text and the argument of each. -/
def warnings (trace : List Effect) : List (String × String) :=
  trace.filterMap fun
    | .warning text arg => some (text, arg)
    | _ => none

/-- The lists handed to `setSubsystems`, in call order. -/
def registeredSubsystems (trace : List Effect) : List (List Subsystem) :=
  trace.filterMap fun
    | .setSubsystems l => some l
    | _ => none

/-- The subsystems in the order of their construction. -/
def constructionOrder (trace : List Effect) : List Subsystem :=
  trace.filterMap fun
    | .construct s => some s
    | _ => none

/-- The arguments of the `setLoop` calls, in call order. -/
def setLoopCalls (trace : List Effect) : List Bool :=
  trace.filterMap fun
    | .setLoop b => some b
    | _ => none

/-- The ports of the `startServer` calls, in call order. -/
def startServerCalls (trace : List Effect) : List Nat :=
  trace.filterMap fun
    | .startServer port => some port
    | _ => none

/-- The diagnostics `checkDatabaseParam` can emit. -/
def databaseWarnings : List String :=
  ["invalid parameter f", "Database file does not exist:", "Database filetype not supported:"]

/-! ## Example inputs -/

/-- A file system holding one SQLite database, `/data/replay.db`, and one text file. -/
def sampleFs : FileSystem where
  fileExists := fun p => p == "/data/replay.db" || p == "/data/notes.txt"
  mimeName := fun p => if p == "/data/replay.db" then "application/x-sqlite3" else "text/plain"
  size := fun p => if p == "/data/replay.db" then 4194304 else 12

/-- Command line `-f /data/replay.db -t 50 -l`. -/
def sampleParser : QCommandLineParser := ⟨["/data/replay.db"], ["50"], 1⟩

/-- Command line `-f /data/missing.db -t 5`: no such file, and a tick rate below 10. -/
def bothInvalidParser : QCommandLineParser := ⟨["/data/missing.db"], ["5"], 0⟩

/-- Command line `-f /data/replay.db -t 5000`: only the tick rate is invalid. -/
def tickInvalidParser : QCommandLineParser := ⟨["/data/replay.db"], ["5000"], 0⟩

/-- Command line without any option. -/
def emptyParser : QCommandLineParser := ⟨[], [], 0⟩

/-! ## Theorems -/

/-- The return value of `checkTickrateParam` in terms of the parse result. -/
theorem checkTickrateParam_accepts (s : String) :
    (checkTickrateParam s).1 = true ↔
      (toInt s).ok = true ∧ 10 ≤ (toInt s).value ∧ (toInt s).value ≤ 1000 := by
  unfold checkTickrateParam
  by_cases h : ((toInt s).ok == false || decide ((toInt s).value < 10) ||
      decide ((toInt s).value > 1000)) = true
  · simp only [h, if_true]
    simp only [Bool.or_eq_true, beq_iff_eq, decide_eq_true_eq] at h
    constructor
    · intro h'
      exact absurd h' (by simp)
    · rintro ⟨h0, h1, h2⟩
      rcases h with (h | h) | h
      · rw [h0] at h
        exact absurd h (by simp)
      · omega
      · omega
  · simp only [h]
    simp only [Bool.or_eq_true, beq_iff_eq, decide_eq_true_eq, not_or, not_lt,
      Bool.not_eq_false] at h
    obtain ⟨⟨h0, h1⟩, h2⟩ := h
    simp only [Bool.false_eq_true, if_false, true_iff]
    exact ⟨h0, h1, by omega⟩

/-- A `QString` is empty exactly when it is the empty string. -/
theorem data_isEmpty_iff (p : String) : p.data.isEmpty = true ↔ p = "" := by
  rw [List.isEmpty_iff]
  constructor
  · intro h
    exact String.ext h
  · intro h
    rw [h]

/-- The return value of `checkDatabaseParam` in terms of the file system. -/
theorem checkDatabaseParam_accepts (fs : FileSystem) (p : String) :
    (checkDatabaseParam fs p).1 = true ↔
      p ≠ "" ∧ fs.fileExists p = true ∧ fs.mimeName p = "application/x-sqlite3" := by
  unfold checkDatabaseParam
  by_cases h0 : p.data.isEmpty = true
  · have hp := (data_isEmpty_iff p).1 h0
    simp [h0, hp]
  · have hp : p ≠ "" := fun hp => h0 ((data_isEmpty_iff p).2 hp)
    by_cases h1 : fs.fileExists p = true
    · by_cases h2 : fs.mimeName p = "application/x-sqlite3"
      · simp [h0, h1, h2, hp]
      · simp [h0, h1, h2, hp]
    · simp [h0, h1, hp]

/-- The effects of an accepting `checkDatabaseParam`. -/
theorem checkDatabaseParam_log_of_valid (fs : FileSystem) (p : String)
    (h : (checkDatabaseParam fs p).1 = true) :
    (checkDatabaseParam fs p).2 =
      [.queryExists p, .queryMimeType p, .debugDatabaseFile p (fs.size p)] := by
  obtain ⟨h0, h1, h2⟩ := (checkDatabaseParam_accepts fs p).1 h
  have h0' : ¬ p.data.isEmpty = true := fun hp => h0 ((data_isEmpty_iff p).1 hp)
  unfold checkDatabaseParam
  simp [h0', h1, h2]

/-- The checks of the database parameter only log and query the file system. -/
theorem checkDatabaseParam_effects (fs : FileSystem) (p : String) :
    ∀ e ∈ (checkDatabaseParam fs p).2, e.isCheckEffect = true := by
  unfold checkDatabaseParam
  by_cases h0 : p.data.isEmpty = true
  · simp [h0, Effect.isCheckEffect]
  · by_cases h1 : fs.fileExists p = true
    · by_cases h2 : fs.mimeName p = "application/x-sqlite3"
      · simp [h0, h1, h2, Effect.isCheckEffect]
      · simp [h0, h1, h2, Effect.isCheckEffect]
    · simp [h0, h1, Effect.isCheckEffect]

/-- The check of the tick rate only logs. -/
theorem checkTickrateParam_effects (s : String) :
    ∀ e ∈ (checkTickrateParam s).2, e.isCheckEffect = true := by
  unfold checkTickrateParam
  simp only
  split_ifs <;> simp [Effect.isCheckEffect]

/-- A run whose database parameter is rejected. -/
theorem main_of_database_invalid (fs : FileSystem) (parser : QCommandLineParser)
    (h : (checkDatabaseParam fs (parser.value .databaseOption)).1 = false) :
    main fs parser =
      ⟨(checkDatabaseParam fs (parser.value .databaseOption)).2 ++ [.showHelp 1], .exited 1⟩ := by
  simp [main, h]

/-- A run whose database parameter is accepted and whose tick rate is rejected. -/
theorem main_of_tickrate_invalid (fs : FileSystem) (parser : QCommandLineParser)
    (hdb : (checkDatabaseParam fs (parser.value .databaseOption)).1 = true)
    (h : (checkTickrateParam (parser.value .tickrateOption)).1 = false) :
    main fs parser =
      ⟨(checkDatabaseParam fs (parser.value .databaseOption)).2 ++
        (checkTickrateParam (parser.value .tickrateOption)).2 ++ [.showHelp 1], .exited 1⟩ := by
  simp [main, h, hdb]

/-- A run whose parameters are both accepted. -/
theorem main_of_valid (fs : FileSystem) (parser : QCommandLineParser)
    (hdb : (checkDatabaseParam fs (parser.value .databaseOption)).1 = true)
    (ht : (checkTickrateParam (parser.value .tickrateOption)).1 = true) :
    main fs parser =
      ⟨(checkDatabaseParam fs (parser.value .databaseOption)).2 ++
        (checkTickrateParam (parser.value .tickrateOption)).2 ++ startSystems parser,
        .eventLoop⟩ := by
  simp [main, ht, hdb]

/-- Reading a trace with `filterMap` skips a prefix of check effects, when the reader
ignores check effects. -/
theorem filterMap_checks {α : Type} (f : Effect → Option α)
    (hf : ∀ e, e.isCheckEffect = true → f e = none) (l : List Effect)
    (hl : ∀ e ∈ l, e.isCheckEffect = true) : l.filterMap f = [] := by
  rw [List.filterMap_eq_nil_iff]
  intro e he
  exact hf e (hl e he)

/-- Every effect of a run that ends in `showHelp` is a check effect or the `showHelp`. -/
theorem main_invalid_trace (fs : FileSystem) (parser : QCommandLineParser)
    (h : (checkDatabaseParam fs (parser.value .databaseOption)).1 = false ∨
      (checkTickrateParam (parser.value .tickrateOption)).1 = false) :
    (main fs parser).termination = .exited 1 ∧
    (∃ pre, (main fs parser).trace = pre ++ [.showHelp 1] ∧
      ∀ e ∈ pre, e.isCheckEffect = true) := by
  by_cases hdb : (checkDatabaseParam fs (parser.value .databaseOption)).1 = true
  · have ht : (checkTickrateParam (parser.value .tickrateOption)).1 = false := by
      rcases h with h | h
      · rw [hdb] at h
        exact absurd h (by simp)
      · exact h
    rw [main_of_tickrate_invalid fs parser hdb ht]
    refine ⟨rfl, _, rfl, ?_⟩
    intro e he
    rcases List.mem_append.1 he with he | he
    · exact checkDatabaseParam_effects _ _ e he
    · exact checkTickrateParam_effects _ e he
  · have hdb' : (checkDatabaseParam fs (parser.value .databaseOption)).1 = false := by
      simpa using hdb
    rw [main_of_database_invalid fs parser hdb']
    exact ⟨rfl, _, rfl, checkDatabaseParam_effects _ _⟩

/-- On a valid command line a reader that ignores check effects sees only what the
second half of `main` does. -/
theorem main_valid_filterMap {α : Type} (f : Effect → Option α)
    (hf : ∀ e, e.isCheckEffect = true → f e = none)
    (fs : FileSystem) (parser : QCommandLineParser)
    (hdb : (checkDatabaseParam fs (parser.value .databaseOption)).1 = true)
    (ht : (checkTickrateParam (parser.value .tickrateOption)).1 = true) :
    (main fs parser).trace.filterMap f = (startSystems parser).filterMap f := by
  rw [main_of_valid fs parser hdb ht]
  simp only [List.filterMap_append]
  rw [filterMap_checks f hf _ (checkDatabaseParam_effects _ _),
    filterMap_checks f hf _ (checkTickrateParam_effects _)]
  rfl

/-- The steps of one delivery belong to its event and its subsystem. -/
theorem deliver_step {σ : Type} (s : σ) (k : Nat) (r : OnEventResult) :
    ∀ x ∈ deliver s k r, x.event = k ∧ ∀ t ∈ x.subsystem?, t = s := by
  intro x hx
  cases r <;> simp only [deliver, List.mem_cons, List.mem_singleton, List.not_mem_nil,
    or_false] at hx
  · rcases hx with rfl | rfl <;> simp [DispatchStep.event, DispatchStep.subsystem?]
  · rcases hx with rfl | rfl | rfl <;> simp [DispatchStep.event, DispatchStep.subsystem?]
  · rcases hx with rfl | rfl | rfl | rfl <;>
      simp [DispatchStep.event, DispatchStep.subsystem?]

/-- A delivery to `A` contains the return of `A`. -/
theorem returned_mem_deliver {σ : Type} (s : σ) (k : Nat) (r : OnEventResult) :
    DispatchStep.returned s k r ∈ deliver s k r := by
  cases r <;> simp [deliver]

/-- Within one delivery the return does not precede the start. -/
theorem deliver_pairwise {σ : Type} (A B s : σ) (k : Nat) (r : OnEventResult) (hAB : A ≠ B) :
    (deliver s k r).Pairwise (NoReturnAfterBegin A B) := by
  cases r <;> simp [deliver, NoReturnAfterBegin] <;> intro h1 h2 <;>
    exact hAB (h2.symm.trans h1)

/-- The steps of one dispatch belong to its event and to registered subsystems. -/
theorem dispatch_step {σ ε : Type} (onEvent : σ → Nat → ε → OnEventResult) (k : Nat) (e : ε)
    (subs : List σ) :
    ∀ x ∈ (dispatch onEvent k e subs).1, x.event = k ∧ ∀ t ∈ x.subsystem?, t ∈ subs := by
  induction subs with
  | nil => simp [dispatch]
  | cons s rest ih =>
    intro x hx
    have hd : ∀ y ∈ deliver s k (onEvent s k e),
        y.event = k ∧ ∀ t ∈ y.subsystem?, t ∈ s :: rest := by
      intro y hy
      obtain ⟨h1, h2⟩ := deliver_step s k _ y hy
      exact ⟨h1, fun t ht => by rw [h2 t ht]; exact List.mem_cons_self _ _⟩
    simp only [dispatch] at hx
    split_ifs at hx with hf
    · exact hd x hx
    · rcases List.mem_append.1 hx with hx | hx
      · exact hd x hx
      · obtain ⟨h1, h2⟩ := ih x hx
        exact ⟨h1, fun t ht => List.mem_cons_of_mem _ (h2 t ht)⟩

/-- How `A` can precede `B` in a list with a head. -/
theorem pair_sublist_cons {σ : Type} {A B s : σ} {rest : List σ}
    (h : [A, B].Sublist (s :: rest)) : [A, B].Sublist rest ∨ (A = s ∧ B ∈ rest) := by
  cases h with
  | cons _ h => exact Or.inl h
  | cons₂ _ h => exact Or.inr ⟨rfl, List.singleton_sublist.1 h⟩

/-- Within one dispatch no completion of `A` follows a start of `B`, when `A` precedes `B`. -/
theorem dispatch_pairwise {σ ε : Type} (onEvent : σ → Nat → ε → OnEventResult) (k : Nat)
    (e : ε) (A B : σ) (subs : List σ) (hnodup : subs.Nodup) (hAB : [A, B].Sublist subs) :
    ((dispatch onEvent k e subs).1).Pairwise (NoReturnAfterBegin A B) := by
  have hne : A ≠ B := by
    have := hAB.nodup hnodup
    simpa using this
  induction subs with
  | nil => simp [dispatch]
  | cons s rest ih =>
    obtain ⟨hs, hrest⟩ := List.nodup_cons.1 hnodup
    simp only [dispatch]
    split_ifs with hf
    · exact deliver_pairwise A B s k _ hne
    · rw [List.pairwise_append]
      refine ⟨deliver_pairwise A B s k _ hne, ?_, ?_⟩
      · rcases pair_sublist_cons hAB with h | ⟨hA, -⟩
        · exact ih hrest h
        · apply List.pairwise_of_forall_mem_list
          intro x _ y hy j _ r hyr
          have hmem := (dispatch_step onEvent k e rest y hy).2 A (by rw [hyr]; rfl)
          exact hs (hA ▸ hmem)
      · intro x hx y hy j hxb r hyr
        have hB : B = s := (deliver_step s k _ x hx).2 B (by rw [hxb]; rfl)
        have hmem : A ∈ rest := (dispatch_step onEvent k e rest y hy).2 A (by rw [hyr]; rfl)
        rcases pair_sublist_cons hAB with h | ⟨hA, -⟩
        · have hBmem : B ∈ rest := h.subset (by simp)
          exact hs (hB ▸ hBmem)
        · exact hs (hA ▸ hmem)

/-- Within one dispatch a start of `B` comes with a completion of `A`, when `A` precedes
`B`. -/
theorem dispatch_returned_of_began {σ ε : Type} (onEvent : σ → Nat → ε → OnEventResult)
    (k : Nat) (e : ε) (A B : σ) (subs : List σ) (hnodup : subs.Nodup)
    (hAB : [A, B].Sublist subs) (j : Nat)
    (hb : DispatchStep.began B j ∈ (dispatch onEvent k e subs).1) :
    ∃ r, DispatchStep.returned A j r ∈ (dispatch onEvent k e subs).1 := by
  have hj : j = k := (dispatch_step onEvent k e subs _ hb).1
  subst hj
  induction subs with
  | nil => simp [dispatch] at hb
  | cons s rest ih =>
    obtain ⟨hs, hrest⟩ := List.nodup_cons.1 hnodup
    rcases pair_sublist_cons hAB with h | ⟨hA, -⟩
    · have hBmem : B ∈ rest := h.subset (by simp)
      have hBs : B ≠ s := fun hBs => hs (hBs ▸ hBmem)
      have hnot : DispatchStep.began B j ∉ deliver s j (onEvent s j e) := fun hmem =>
        hBs ((deliver_step s j _ _ hmem).2 B rfl)
      simp only [dispatch] at hb ⊢
      split_ifs at hb ⊢ with hf
      · exact absurd hb hnot
      · rcases List.mem_append.1 hb with hb | hb
        · exact absurd hb hnot
        · obtain ⟨r, hr⟩ := ih hrest h hb
          exact ⟨r, List.mem_append_right _ hr⟩
    · subst hA
      refine ⟨onEvent A j e, ?_⟩
      simp only [dispatch]
      split_ifs with hf
      · exact returned_mem_deliver _ _ _
      · exact List.mem_append_left _ (returned_mem_deliver _ _ _)

/-- The steps of a session that starts at event `k` belong to events from `k` on. -/
theorem runSession_event_ge {σ ε : Type} (onEvent : σ → Nat → ε → OnEventResult)
    (subs : List σ) (es : List ε) :
    ∀ k, ∀ x ∈ runSession onEvent subs k es, k ≤ x.event := by
  induction es with
  | nil => simp [runSession]
  | cons e es ih =>
    intro k x hx
    simp only [runSession] at hx
    split_ifs at hx with hc
    · rcases List.mem_append.1 hx with hx | hx
      · exact le_of_eq (dispatch_step onEvent k e subs x hx).1.symm
      · exact Nat.le_of_succ_le (ih (k + 1) x hx)
    · exact le_of_eq (dispatch_step onEvent k e subs x hx).1.symm

/-- In a session no completion of `A` follows a start of `B` on the same event, when `A`
precedes `B`. -/
theorem runSession_pairwise {σ ε : Type} (onEvent : σ → Nat → ε → OnEventResult)
    (A B : σ) (subs : List σ) (hnodup : subs.Nodup) (hAB : [A, B].Sublist subs)
    (es : List ε) :
    ∀ k, (runSession onEvent subs k es).Pairwise (NoReturnAfterBegin A B) := by
  induction es with
  | nil => simp [runSession]
  | cons e es ih =>
    intro k
    simp only [runSession]
    split_ifs with hc
    · rw [List.pairwise_append]
      refine ⟨dispatch_pairwise onEvent k e A B subs hnodup hAB, ih (k + 1), ?_⟩
      intro x hx y hy j hxb r hyr
      have h1 := (dispatch_step onEvent k e subs x hx).1
      have h2 := runSession_event_ge onEvent subs es (k + 1) y hy
      rw [hxb] at h1
      rw [hyr] at h2
      simp only [DispatchStep.event] at h1 h2
      omega
    · exact dispatch_pairwise onEvent k e A B subs hnodup hAB

/-- In a session a start of `B` comes with a completion of `A` on the same event, when `A`
precedes `B`. -/
theorem runSession_returned_of_began {σ ε : Type} (onEvent : σ → Nat → ε → OnEventResult)
    (A B : σ) (subs : List σ) (hnodup : subs.Nodup) (hAB : [A, B].Sublist subs)
    (es : List ε) (j : Nat) :
    ∀ k, DispatchStep.began B j ∈ runSession onEvent subs k es →
      ∃ r, DispatchStep.returned A j r ∈ runSession onEvent subs k es := by
  induction es with
  | nil => simp [runSession]
  | cons e es ih =>
    intro k hb
    simp only [runSession] at hb ⊢
    split_ifs at hb ⊢ with hc
    · rcases List.mem_append.1 hb with hb | hb
      · obtain ⟨r, hr⟩ := dispatch_returned_of_began onEvent k e A B subs hnodup hAB j hb
        exact ⟨r, List.mem_append_left _ hr⟩
      · obtain ⟨r, hr⟩ := ih (k + 1) hb
        exact ⟨r, List.mem_append_right _ hr⟩
    · exact dispatch_returned_of_began onEvent k e A B subs hnodup hAB j hb

/-- C1: `checkTickrateParam` accepts exactly the strings `QString::toInt` parses to an
integer between 10 and 1000; 10 and 1000 pass, 9 and 1001 fail, and so do the empty string
(no `-t` option), text that is no number and numbers that do not fit an `int`. -/
theorem checkTickrateParam_iff :
    (∀ s : String, (checkTickrateParam s).1 = true ↔
      ∃ n : Int, toInt s = ⟨n, true⟩ ∧ 10 ≤ n ∧ n ≤ 1000) ∧
    (checkTickrateParam "10").1 = true ∧ (checkTickrateParam "1000").1 = true ∧
    (checkTickrateParam "9").1 = false ∧ (checkTickrateParam "1001").1 = false ∧
    (checkTickrateParam "").1 = false ∧
    (checkTickrateParam (emptyParser.value .tickrateOption)).1 = false ∧
    (checkTickrateParam "fast").1 = false ∧ (checkTickrateParam "50ms").1 = false ∧
    (checkTickrateParam "2147483648").1 = false ∧
    (checkTickrateParam "4294967396").1 = false := by
  refine ⟨?_, by decide, by decide, by decide, by decide, by decide, by decide, by decide,
    by decide, by decide, by decide⟩
  intro s
  rw [checkTickrateParam_accepts]
  constructor
  · rintro ⟨h0, h1, h2⟩
    refine ⟨(toInt s).value, ?_, h1, h2⟩
    rw [← h0]
  · rintro ⟨n, hn, h1, h2⟩
    rw [hn]
    exact ⟨rfl, h1, h2⟩

/-- C10: `checkDatabaseParam` returns true exactly for a non-empty path at which a file
exists whose content-detected MIME type is `application/x-sqlite3`; each failing condition
gives false, and the MIME type is not queried for an empty or non-existent path. -/
theorem checkDatabaseParam_iff (fs : FileSystem) (p : String) :
    ((checkDatabaseParam fs p).1 = true ↔
      p ≠ "" ∧ fs.fileExists p = true ∧ fs.mimeName p = "application/x-sqlite3") ∧
    (p = "" → (checkDatabaseParam fs p).1 = false) ∧
    (fs.fileExists p = false → (checkDatabaseParam fs p).1 = false) ∧
    (fs.mimeName p ≠ "application/x-sqlite3" → (checkDatabaseParam fs p).1 = false) ∧
    (p = "" ∨ fs.fileExists p = false →
      ∀ q, Effect.queryMimeType q ∉ (checkDatabaseParam fs p).2) := by
  have hacc := checkDatabaseParam_accepts fs p
  refine ⟨hacc, ?_, ?_, ?_, ?_⟩
  · intro h
    rw [← Bool.not_eq_true, hacc]
    exact fun h' => h'.1 h
  · intro h
    rw [← Bool.not_eq_true, hacc]
    intro h'
    rw [h'.2.1] at h
    exact absurd h (by simp)
  · intro h
    rw [← Bool.not_eq_true, hacc]
    exact fun h' => h h'.2.2
  · intro h q
    unfold checkDatabaseParam
    rcases h with h | h
    · have h0 := (data_isEmpty_iff p).2 h
      simp [h0]
    · by_cases h0 : p.data.isEmpty = true
      · simp [h0]
      · simp [h0, h]

/-- C2: when the database parameter or the tick rate is rejected, `main` ends with exit
status 1 through `showHelp(1)`, and nothing was constructed, registered, configured or
started before. -/
theorem main_invalid_exits (fs : FileSystem) (parser : QCommandLineParser)
    (h : (checkDatabaseParam fs (parser.value .databaseOption)).1 = false ∨
      (checkTickrateParam (parser.value .tickrateOption)).1 = false) :
    (main fs parser).termination = .exited 1 ∧
    (main fs parser).trace.getLast? = some (.showHelp 1) ∧
    Effect.constructEventHandler ∉ (main fs parser).trace ∧
    (∀ s, Effect.construct s ∉ (main fs parser).trace) ∧
    (∀ l, Effect.setSubsystems l ∉ (main fs parser).trace) ∧
    (∀ path, Effect.setDatabaseFile path ∉ (main fs parser).trace) ∧
    (∀ n, Effect.setTickrate n ∉ (main fs parser).trace) ∧
    Effect.startReplay ∉ (main fs parser).trace ∧
    (∀ b, Effect.setLoop b ∉ (main fs parser).trace) ∧
    (∀ port, Effect.startServer port ∉ (main fs parser).trace) ∧
    Effect.exec ∉ (main fs parser).trace := by
  obtain ⟨hterm, pre, htrace, hpre⟩ := main_invalid_trace fs parser h
  have hall : ∀ e ∈ (main fs parser).trace, e.isCheckEffect = true ∨ e = .showHelp 1 := by
    intro e he
    rw [htrace] at he
    rcases List.mem_append.1 he with he | he
    · exact Or.inl (hpre e he)
    · exact Or.inr (by simpa using he)
  have hno : ∀ e, e.isCheckEffect = false → e ≠ .showHelp 1 → e ∉ (main fs parser).trace := by
    intro e h1 h2 he
    rcases hall e he with h' | h'
    · rw [h1] at h'
      exact absurd h' (by simp)
    · exact h2 h'
  refine ⟨hterm, ?_, hno _ rfl (by simp), fun s => hno _ rfl (by simp),
    fun l => hno _ rfl (by simp), fun q => hno _ rfl (by simp), fun n => hno _ rfl (by simp),
    hno _ rfl (by simp), fun b => hno _ rfl (by simp), fun q => hno _ rfl (by simp),
    hno _ rfl (by simp)⟩
  rw [htrace]
  simp

/-- Witness of C2: no option at all on the command line, and a tick rate of 5000 with a
valid database. -/
theorem main_invalid_exits_witness :
    ((main sampleFs emptyParser).termination = .exited 1 ∧
      ∀ s, Effect.construct s ∉ (main sampleFs emptyParser).trace) ∧
    ((main sampleFs tickInvalidParser).termination = .exited 1 ∧
      ∀ s, Effect.construct s ∉ (main sampleFs tickInvalidParser).trace) :=
  have h := main_invalid_exits sampleFs emptyParser (Or.inl (by decide))
  have h' := main_invalid_exits sampleFs tickInvalidParser (Or.inr (by decide))
  ⟨⟨h.1, h.2.2.2.1⟩, ⟨h'.1, h'.2.2.2.1⟩⟩

/-- C3: on a valid command line `setSubsystems` is called once; its list holds the
latest-value cache, the introspection system, the network system (set to pass-through
before) and the TCP system in that relative order, and the list is in the order of
construction. -/
theorem registration_order (fs : FileSystem) (parser : QCommandLineParser)
    (hdb : (checkDatabaseParam fs (parser.value .databaseOption)).1 = true)
    (ht : (checkTickrateParam (parser.value .tickrateOption)).1 = true) :
    ∃ l, registeredSubsystems (main fs parser).trace = [l] ∧
      l.filter (fun s => s ∈ [Subsystem.storSystem, .introspectionSystem, .netSystem,
          .tcpSystem]) =
        [.storSystem, .introspectionSystem, .netSystem, .tcpSystem] ∧
      (constructionOrder (main fs parser).trace).filter
          (fun s => s ∈ [Subsystem.storSystem, .introspectionSystem, .netSystem,
            .tcpSystem]) =
        [.storSystem, .introspectionSystem, .netSystem, .tcpSystem] ∧
      constructionOrder (main fs parser).trace = l ∧
      [Effect.setOperationModePassThrough, Effect.setSubsystems l].Sublist
        (main fs parser).trace := by
  refine ⟨[.replaySystem, .storSystem, .introspectionSystem, .netSystem, .tcpSystem],
    ?_, by decide, ?_, ?_, ?_⟩
  · unfold registeredSubsystems
    rw [main_valid_filterMap _ (by intro e he; cases e <;> simp_all [Effect.isCheckEffect])
      fs parser hdb ht]
    rfl
  · unfold constructionOrder
    rw [main_valid_filterMap _ (by intro e he; cases e <;> simp_all [Effect.isCheckEffect])
      fs parser hdb ht]
    rfl
  · unfold constructionOrder
    rw [main_valid_filterMap _ (by intro e he; cases e <;> simp_all [Effect.isCheckEffect])
      fs parser hdb ht]
    rfl
  · rw [main_of_valid fs parser hdb ht]
    refine List.Sublist.trans ?_ (List.sublist_append_right _ _)
    exact .cons _ (.cons _ (.cons _ (.cons _ (.cons _ (.cons _
      (.cons₂ _ (.cons₂ _ (List.nil_sublist _))))))))

/-- Witness of C3: the sample command line. -/
theorem registration_order_witness :
    ∃ l, registeredSubsystems (main sampleFs sampleParser).trace = [l] ∧
      l.filter (fun s => s ∈ [Subsystem.storSystem, .introspectionSystem, .netSystem,
          .tcpSystem]) =
        [.storSystem, .introspectionSystem, .netSystem, .tcpSystem] ∧
      (constructionOrder (main sampleFs sampleParser).trace).filter
          (fun s => s ∈ [Subsystem.storSystem, .introspectionSystem, .netSystem,
            .tcpSystem]) =
        [.storSystem, .introspectionSystem, .netSystem, .tcpSystem] ∧
      constructionOrder (main sampleFs sampleParser).trace = l ∧
      [Effect.setOperationModePassThrough, Effect.setSubsystems l].Sublist
        (main sampleFs sampleParser).trace :=
  registration_order sampleFs sampleParser (by decide) (by decide)

/-- C4, as stated, fails: on the sample command line the replay system is an element of
the registered list, and it, not the latest-value cache, is the first element. -/
theorem replaySystem_registered_counterexample :
    ¬ (∀ l ∈ registeredSubsystems (main sampleFs sampleParser).trace,
        Subsystem.replaySystem ∉ l ∧ l.head? = some Subsystem.storSystem) := by
  decide

/-- C4, amended: on a valid command line the replay system is an element of the one list
registered with `setSubsystems`; it is the first element and the latest-value cache is the
second. -/
theorem replaySystem_registered_first (fs : FileSystem) (parser : QCommandLineParser)
    (hdb : (checkDatabaseParam fs (parser.value .databaseOption)).1 = true)
    (ht : (checkTickrateParam (parser.value .tickrateOption)).1 = true) :
    ∃ l, registeredSubsystems (main fs parser).trace = [l] ∧
      Subsystem.replaySystem ∈ l ∧ l[0]? = some Subsystem.replaySystem ∧
      l[1]? = some Subsystem.storSystem := by
  refine ⟨[.replaySystem, .storSystem, .introspectionSystem, .netSystem, .tcpSystem],
    ?_, by decide, by decide, by decide⟩
  unfold registeredSubsystems
  rw [main_valid_filterMap _ (by intro e he; cases e <;> simp_all [Effect.isCheckEffect])
    fs parser hdb ht]
  rfl

/-- Witness of C4, amended: the sample command line. -/
theorem replaySystem_registered_first_witness :
    ∃ l, registeredSubsystems (main sampleFs sampleParser).trace = [l] ∧
      Subsystem.replaySystem ∈ l ∧ l[0]? = some Subsystem.replaySystem ∧
      l[1]? = some Subsystem.storSystem :=
  replaySystem_registered_first sampleFs sampleParser (by decide) (by decide)

/-- C7: on a valid command line `startServer` is called once, with port 12000, whatever the
database path, the tick rate and the loop flag are. -/
theorem startServer_port (fs : FileSystem) (parser : QCommandLineParser)
    (hdb : (checkDatabaseParam fs (parser.value .databaseOption)).1 = true)
    (ht : (checkTickrateParam (parser.value .tickrateOption)).1 = true) :
    startServerCalls (main fs parser).trace = [12000] := by
  unfold startServerCalls
  rw [main_valid_filterMap _ (by intro e he; cases e <;> simp_all [Effect.isCheckEffect])
    fs parser hdb ht]
  rfl

/-- Witness of C7: the sample command line. -/
theorem startServer_port_witness :
    startServerCalls (main sampleFs sampleParser).trace = [12000] :=
  startServer_port sampleFs sampleParser (by decide) (by decide)

/-- C5, as stated, fails: with a missing database file and the tick rate 5 both fields
are invalid, yet the run emits the database warning only and exits; no warning
`Invalid parameter t` is emitted. -/
theorem diagnostics_both_invalid_counterexample :
    (checkDatabaseParam sampleFs (bothInvalidParser.value .databaseOption)).1 = false ∧
    (checkTickrateParam (bothInvalidParser.value .tickrateOption)).1 = false ∧
    (main sampleFs bothInvalidParser).trace =
      [.queryExists "/data/missing.db",
        .warning "Database file does not exist:" "/data/missing.db", .showHelp 1] ∧
    ¬ ∃ arg, Effect.warning "Invalid parameter t" arg ∈ (main sampleFs bothInvalidParser).trace := by
  have htrace : (main sampleFs bothInvalidParser).trace =
      [.queryExists "/data/missing.db",
        .warning "Database file does not exist:" "/data/missing.db", .showHelp 1] := by
    decide
  refine ⟨by decide, by decide, htrace, ?_⟩
  rw [htrace]
  simp

/-- C5, amended: an invalid database parameter yields exactly one warning, one of the three
database diagnostics, emitted before `showHelp(1)` ends the run (the tick rate is not
checked then); a valid database parameter with an invalid tick rate yields exactly the
warning `Invalid parameter t`, emitted before `showHelp(1)`; the tick-rate diagnostic is
none of the database diagnostics. -/
theorem diagnostics_per_field (fs : FileSystem) (parser : QCommandLineParser) :
    ((checkDatabaseParam fs (parser.value .databaseOption)).1 = false →
      ∃ text arg pre, text ∈ databaseWarnings ∧
        warnings (main fs parser).trace = [(text, arg)] ∧
        (main fs parser).trace = pre ++ [.showHelp 1] ∧ Effect.warning text arg ∈ pre) ∧
    ((checkDatabaseParam fs (parser.value .databaseOption)).1 = true →
      (checkTickrateParam (parser.value .tickrateOption)).1 = false →
      ∃ pre, warnings (main fs parser).trace =
          [("Invalid parameter t", parser.value .tickrateOption)] ∧
        (main fs parser).trace = pre ++ [.showHelp 1] ∧
        Effect.warning "Invalid parameter t" (parser.value .tickrateOption) ∈ pre) ∧
    "Invalid parameter t" ∉ databaseWarnings := by
  refine ⟨?_, ?_, by decide⟩
  · intro hdb
    rw [main_of_database_invalid fs parser hdb]
    have hacc := checkDatabaseParam_accepts fs (parser.value .databaseOption)
    unfold checkDatabaseParam at hdb ⊢
    by_cases h0 : (parser.value .databaseOption).data.isEmpty = true
    · refine ⟨"invalid parameter f", parser.value .databaseOption, _, by decide, ?_, rfl, ?_⟩
      · simp [h0, warnings]
      · simp [h0]
    · by_cases h1 : fs.fileExists (parser.value .databaseOption) = true
      · by_cases h2 : fs.mimeName (parser.value .databaseOption) = "application/x-sqlite3"
        · simp [h0, h1, h2] at hdb
        · refine ⟨"Database filetype not supported:",
            fs.mimeName (parser.value .databaseOption), _, by decide, ?_, rfl, ?_⟩
          · simp [h0, h1, h2, warnings]
          · simp [h0, h1, h2]
      · refine ⟨"Database file does not exist:", parser.value .databaseOption, _,
          by decide, ?_, rfl, ?_⟩
        · simp [h0, h1, warnings]
        · simp [h0, h1]
  · intro hdb ht
    rw [main_of_tickrate_invalid fs parser hdb ht]
    have hlog : (checkTickrateParam (parser.value .tickrateOption)).2 =
        [.warning "Invalid parameter t" (parser.value .tickrateOption)] := by
      unfold checkTickrateParam at ht ⊢
      simp only at ht ⊢
      split_ifs at ht ⊢ with hc
      rfl
    rw [hlog, checkDatabaseParam_log_of_valid fs _ hdb]
    exact ⟨_, rfl, rfl, by simp⟩

/-- Witness of C5, amended: a missing database file, and a tick rate of 5000. -/
theorem diagnostics_per_field_witness :
    (∃ text arg pre, text ∈ databaseWarnings ∧
      warnings (main sampleFs bothInvalidParser).trace = [(text, arg)] ∧
      (main sampleFs bothInvalidParser).trace = pre ++ [.showHelp 1] ∧
      Effect.warning text arg ∈ pre) ∧
    (∃ pre, warnings (main sampleFs tickInvalidParser).trace =
        [("Invalid parameter t", tickInvalidParser.value .tickrateOption)] ∧
      (main sampleFs tickInvalidParser).trace = pre ++ [.showHelp 1] ∧
      Effect.warning "Invalid parameter t" (tickInvalidParser.value .tickrateOption) ∈ pre) :=
  ⟨(diagnostics_per_field sampleFs bothInvalidParser).1 (by decide),
    (diagnostics_per_field sampleFs tickInvalidParser).2.1 (by decide) (by decide)⟩

/-- C8: an integer passed to `setTickrate` is the value `QString::toInt` parsed from the
`-t` option, the one `checkTickrateParam` accepted and logged, and lies between 10 and
1000; in particular it is not the 0 of a failed parse. -/
theorem setTickrate_in_range (fs : FileSystem) (parser : QCommandLineParser) (n : Int)
    (h : Effect.setTickrate n ∈ (main fs parser).trace) :
    toInt (parser.value .tickrateOption) = ⟨n, true⟩ ∧
    checkTickrateParam (parser.value .tickrateOption) = (true, [.debugTickrate n]) ∧
    10 ≤ n ∧ n ≤ 1000 ∧ n ≠ 0 := by
  by_cases hdb : (checkDatabaseParam fs (parser.value .databaseOption)).1 = true
  swap
  · obtain ⟨-, pre, htrace, hpre⟩ := main_invalid_trace fs parser (Or.inl (by simpa using hdb))
    rw [htrace] at h
    rcases List.mem_append.1 h with h | h
    · exact absurd (hpre _ h) (by simp [Effect.isCheckEffect])
    · simp at h
  by_cases ht : (checkTickrateParam (parser.value .tickrateOption)).1 = true
  swap
  · obtain ⟨-, pre, htrace, hpre⟩ := main_invalid_trace fs parser (Or.inr (by simpa using ht))
    rw [htrace] at h
    rcases List.mem_append.1 h with h | h
    · exact absurd (hpre _ h) (by simp [Effect.isCheckEffect])
    · simp at h
  rw [main_of_valid fs parser hdb ht] at h
  have hn : n = (toInt (parser.value .tickrateOption)).value := by
    rcases List.mem_append.1 h with h | h
    · rcases List.mem_append.1 h with h | h
      · exact absurd (checkDatabaseParam_effects _ _ _ h) (by simp [Effect.isCheckEffect])
      · exact absurd (checkTickrateParam_effects _ _ h) (by simp [Effect.isCheckEffect])
    · simpa [startSystems] using h
  obtain ⟨hok, h1, h2⟩ := (checkTickrateParam_accepts _).1 ht
  rw [← hn] at h1 h2
  have hparse : toInt (parser.value .tickrateOption) = ⟨n, true⟩ := by
    rw [hn, ← hok]
  refine ⟨hparse, ?_, h1, h2, by omega⟩
  unfold checkTickrateParam
  rw [hparse]
  have hc : ¬ ((true == false || decide (n < 10) || decide (n > 1000)) = true) := by
    simp only [Bool.or_eq_true, beq_iff_eq, decide_eq_true_eq, not_or, not_lt]
    exact ⟨⟨by simp, h1⟩, by omega⟩
  simp only [hc, Bool.false_eq_true, if_false]

/-- Witness of C8: the sample command line passes 50 to `setTickrate`. -/
theorem setTickrate_in_range_witness :
    Effect.setTickrate 50 ∈ (main sampleFs sampleParser).trace ∧
    toInt (sampleParser.value .tickrateOption) = ⟨50, true⟩ ∧ (10 : Int) ≤ 50 ∧
    (50 : Int) ≤ 1000 :=
  have h := setTickrate_in_range sampleFs sampleParser 50 (by decide)
  ⟨by decide, h.1, h.2.2.1, h.2.2.2.1⟩

/-- C9: on a valid command line `setLoop` is called exactly once, with `true` exactly when
`-l` was given; `startReplay` is called exactly once, after `setDatabaseFile` and
`setTickrate` and before `setLoop`. -/
theorem setLoop_after_startReplay (fs : FileSystem) (parser : QCommandLineParser)
    (hdb : (checkDatabaseParam fs (parser.value .databaseOption)).1 = true)
    (ht : (checkTickrateParam (parser.value .tickrateOption)).1 = true) :
    setLoopCalls (main fs parser).trace = [parser.isSet .loopOption] ∧
    (parser.isSet .loopOption = true ↔ 0 < parser.lCount) ∧
    (main fs parser).trace.count .startReplay = 1 ∧
    [Effect.setDatabaseFile (parser.value .databaseOption),
      Effect.setTickrate (toInt (parser.value .tickrateOption)).value,
      Effect.startReplay,
      Effect.setLoop (parser.isSet .loopOption)].Sublist (main fs parser).trace := by
  refine ⟨?_, by simp [QCommandLineParser.isSet], ?_, ?_⟩
  · unfold setLoopCalls
    rw [main_valid_filterMap _ (by intro e he; cases e <;> simp_all [Effect.isCheckEffect])
      fs parser hdb ht]
    rfl
  · rw [main_of_valid fs parser hdb ht]
    simp only [List.count_append]
    rw [List.count_eq_zero_of_not_mem, List.count_eq_zero_of_not_mem]
    · simp [startSystems]
    · intro hmem
      exact absurd (checkTickrateParam_effects _ _ hmem) (by simp [Effect.isCheckEffect])
    · intro hmem
      exact absurd (checkDatabaseParam_effects _ _ _ hmem) (by simp [Effect.isCheckEffect])
  · rw [main_of_valid fs parser hdb ht]
    refine List.Sublist.trans ?_ (List.sublist_append_right _ _)
    exact .cons _ (.cons _ (.cons _ (.cons _ (.cons _ (.cons _ (.cons _ (.cons _
      (.cons₂ _ (.cons₂ _ (.cons₂ _ (.cons₂ _ (List.nil_sublist _))))))))))))

/-- Witness of C9: the sample command line, which gives `-l`. -/
theorem setLoop_after_startReplay_witness :
    setLoopCalls (main sampleFs sampleParser).trace = [true] ∧
    (main sampleFs sampleParser).trace.count .startReplay = 1 :=
  have h := setLoop_after_startReplay sampleFs sampleParser (by decide) (by decide)
  ⟨h.1, h.2.2.1⟩

/-- C6: when `A` precedes `B` in the registered subsystem list, then at every point of a
session at which `B` starts to process an event, `A` has already returned from processing
that event, and `A` does not return from it afterwards. -/
theorem dispatch_order {σ ε : Type} (onEvent : σ → Nat → ε → OnEventResult)
    (subs : List σ) (events : List ε) (A B : σ) (k : Nat) (pre post : List (DispatchStep σ))
    (hnodup : subs.Nodup) (hAB : [A, B].Sublist subs)
    (hsplit : runSession onEvent subs 0 events = pre ++ .began B k :: post) :
    (∃ r, DispatchStep.returned A k r ∈ pre) ∧ ∀ r, DispatchStep.returned A k r ∉ post := by
  have hpair := runSession_pairwise onEvent A B subs hnodup hAB events 0
  rw [hsplit, List.pairwise_append, List.pairwise_cons] at hpair
  have hpost : ∀ r, DispatchStep.returned A k r ∉ post := fun r hr =>
    hpair.2.1.1 _ hr k rfl r rfl
  refine ⟨?_, hpost⟩
  have hb : DispatchStep.began B k ∈ runSession onEvent subs 0 events := by
    rw [hsplit]
    simp
  obtain ⟨r, hr⟩ := runSession_returned_of_began onEvent A B subs hnodup hAB events k 0 hb
  rw [hsplit] at hr
  rcases List.mem_append.1 hr with hr | hr
  · exact ⟨r, hr⟩
  · rcases List.mem_cons.1 hr with hr | hr
    · cases hr
    · exact absurd hr (hpost r)

/-- Witness of C6: the list of `main`, two events, the latest-value cache before the TCP
system on the second event, on which the network system reports an error. -/
theorem dispatch_order_witness :
    (∃ r, DispatchStep.returned Subsystem.storSystem 1 r ∈
      (runSession sampleOnEvent mainSubsystems 0 ["a", "b"]).take 19) ∧
    ∀ r, DispatchStep.returned Subsystem.storSystem 1 r ∉
      (runSession sampleOnEvent mainSubsystems 0 ["a", "b"]).drop 20 :=
  dispatch_order sampleOnEvent mainSubsystems ["a", "b"] .storSystem .tcpSystem 1
    ((runSession sampleOnEvent mainSubsystems 0 ["a", "b"]).take 19)
    ((runSession sampleOnEvent mainSubsystems 0 ["a", "b"]).drop 20)
    (by decide) (by decide) (by decide)

end VfDatabaseReplay
